import Mathlib

/-!
Shallow embedding of the `l3gd` gyroscope driver (package `l3gd`, file
`l3gd.go`) and proofs about its register protocol: two's-complement sample
decoding, status-byte interpretation, frequency-table selection, and the
write sequences of `Sleep`, `Wake`, `SetFrequency` and `Read`.

The bus transport (`i2c.Bus`) is external; it is modelled by oracles: a
write oracle `wo : Nat → Option BusError` giving the outcome of the n-th
`WriteByteToReg` call of an operation, a read result `Except BusError Nat`
for `ReadByteFromReg`, and a function for `ReadSliceFromReg`. Every issued
write is recorded in a trace, in order.
-/

namespace Minimu9

/-- A transport-level bus failure, kept abstract (only its identity matters). -/
structure BusError where
  code : Nat
deriving DecidableEq, Repr

/-- The driver value: a device address bound at construction (`NewL3GD`).
The bus handle is modelled by the oracles passed to each operation. -/
structure L3GD where
  address : Nat
deriving DecidableEq, Repr

/-- `DefaultAddress = 0x6b` from the source. -/
def DefaultAddress : Nat := 0x6b

def regCtrl1 : Nat := 0x20

def regCtrl4 : Nat := 0x23

def regLowOdr : Nat := 0x39

/-- `DataAvailabilityError` from the source: a soft error with two flags. -/
structure DataAvailabilityError where
  NewDataNotAvailable : Bool
  NewDataWasOverwritten : Bool
deriving DecidableEq, Repr

def noNewDataMsg : String := "Warning: there was no new measurement since the previous read."

def overwrittenMsg : String := "Warning: a new measurement was acquired before the previous was read."

def unknownMsg : String := "An unknown error has occured. Data may be stale."

/-- `DataAvailabilityError.Error()` from the source: checks
`NewDataNotAvailable` first, then `NewDataWasOverwritten`, else unknown. -/
def DataAvailabilityError.errorString (e : DataAvailabilityError) : String :=
  if e.NewDataNotAvailable then noNewDataMsg
  else if e.NewDataWasOverwritten then overwrittenMsg
  else unknownMsg

/-- One byte written to one register of one device by `WriteByteToReg`. -/
structure RegWrite where
  addr : Nat
  reg : Nat
  val : Nat
deriving DecidableEq, Repr

/-- One `WriteByteToReg` call. The transport answers the n-th write of the
operation (n = number of writes already issued) with `wo n`; `some e` is a
transport failure. The attempted write is recorded in the trace. -/
def writeStep (wo : Nat → Option BusError) (trace : List RegWrite) (w : RegWrite) :
    List RegWrite × Option BusError :=
  (trace ++ [w], wo trace.length)

/-- `Sleep()` from the source: read CTRL1, write it back with bit 3 cleared.
Go computes `bw &^ (1 << 3)`; on a byte that is `bw &&& 0xf7`.
`ro` is the result of the `ReadByteFromReg` call. -/
def sleep (l3g : L3GD) (ro : Except BusError Nat) (wo : Nat → Option BusError) :
    List RegWrite × Option BusError :=
  match ro with
  | .error e => ([], some e)
  | .ok bw => writeStep wo [] ⟨l3g.address, regCtrl1, bw &&& 0xf7⟩

/-- `Wake()` from the source: read CTRL1, write it back OR-ed with `0xf0`. -/
def wake (l3g : L3GD) (ro : Except BusError Nat) (wo : Nat → Option BusError) :
    List RegWrite × Option BusError :=
  match ro with
  | .error e => ([], some e)
  | .ok bw => writeStep wo [] ⟨l3g.address, regCtrl1, bw ||| 0xf0⟩

/-- `bitsLowodrDrForFrequency` from the source:
(thresholdHz, lowOdrBit, ctrl1Bits) rows, ascending by threshold. -/
def bitsLowodrDrForFrequency : List (Int × Nat × Nat) :=
  [(12, 1, 0x0f), (25, 1, 0x1f), (50, 1, 0x2f), (100, 0, 0x0f),
   (200, 0, 0x1f), (400, 0, 0x2f), (800, 0, 0x3f)]

/-- The selection made by `SetFrequency`'s loop: the first row whose
threshold is ≥ hz, or the last row (`i == len-1` in the source). `none`
is the source's unreachable fall-through after the loop. -/
def selectEntry (hz : Int) : List (Int × Nat × Nat) → Option (Int × Nat × Nat)
  | [] => none
  | e :: rest => if e.1 ≥ hz ∨ rest = [] then some e else selectEntry hz rest

/-- Modelled from the spec: "the first table entry whose thresholdHz is ≥
requested hz, scanning the table in ascending order; if none qualifies
before the last entry, the last (maximum-rate) entry is used
unconditionally". Comparison target for the code's `selectEntry`. -/
def specSelect (hz : Int) : Int × Nat × Nat :=
  (bitsLowodrDrForFrequency.find? (fun e => decide (hz ≤ e.1))).getD (800, 0, 0x3f)

/-- The loop body of `SetFrequency`: scan the table; on the first row with
threshold ≥ hz (or the last row), write its lowOdrBit to LOW_ODR and, if
that succeeds, its ctrl1Bits to CTRL1; a failing write returns its error. -/
def setFrequencyLoop (l3g : L3GD) (wo : Nat → Option BusError) (hz : Int)
    (trace : List RegWrite) : List (Int × Nat × Nat) → List RegWrite × Option BusError
  | [] => (trace, none)
  | e :: rest =>
    if e.1 ≥ hz ∨ rest = [] then
      match writeStep wo trace ⟨l3g.address, regLowOdr, e.2.1⟩ with
      | (t, some err) => (t, some err)
      | (t, none) => writeStep wo t ⟨l3g.address, regCtrl1, e.2.2⟩
    else
      setFrequencyLoop l3g wo hz trace rest

/-- `SetFrequency(hz)` from the source: write `0x00` to CTRL4 (gain), then
run the table loop; any write failure aborts with that error. -/
def setFrequency (l3g : L3GD) (wo : Nat → Option BusError) (hz : Int) :
    List RegWrite × Option BusError :=
  match writeStep wo [] ⟨l3g.address, regCtrl4, 0x00⟩ with
  | (t, some err) => (t, some err)
  | (t, none) => setFrequencyLoop l3g wo hz t bitsLowodrDrForFrequency

/-- Go's `int8(b)`: reinterpret a byte as a signed 8-bit integer. -/
def int8 (b : Nat) : Int := if b < 128 then (b : Int) else (b : Int) - 256

/-- The per-axis decode performed by `Read`, byte-exact from the source:
`(int(int8(hi)) << 8) | int(int8(lo))`, where `<<` and `|` are Go's
arithmetic shift and bitwise OR on (two's-complement) `int`. -/
def decodeAxis (lo hi : Nat) : Int := Int.lor (int8 hi <<< (8 : Int)) (int8 lo)

/-- Modelled from the spec and claim: the 16-bit two's-complement
little-endian value of the byte pair (lo, hi). Comparison target for the
code's `decodeAxis`. -/
def decode16LE (lo hi : Nat) : Int :=
  let u := (hi % 256) * 256 + lo % 256
  if u < 32768 then (u : Int) else (u : Int) - 65536

/-- The status interpretation of `Read`, from the source: high nibble set →
overwritten; else low nibble zero → not yet available; else no error. -/
def statusErr (b0 : Nat) : Option DataAvailabilityError :=
  if b0 &&& 0xf0 > 0 then some ⟨false, true⟩
  else if b0 &&& 0x0f = 0 then some ⟨true, false⟩
  else none

/-- Data-availability outcome, per the spec's vocabulary. -/
inductive Availability where
  | Fresh
  | NotYetAvailable
  | Overwritten
deriving DecidableEq, Repr

/-- Modelled from the spec: "if high nibble (bits 4–7) is non-zero →
Overwritten; else if low nibble (bits 0–3) is all zero → NotYetAvailable;
else → Fresh". Comparison target for the code's `statusErr`. -/
def specAvailability (b0 : Nat) : Availability :=
  if b0 &&& 0xf0 ≠ 0 then .Overwritten
  else if b0 &&& 0x0f = 0 then .NotYetAvailable
  else .Fresh

/-- The decoded sample vector (`r3.Vector`); every decoded 16-bit sample is
exactly representable in float64, so components are modelled as integers. -/
structure Vector3 where
  X : Int
  Y : Int
  Z : Int
deriving DecidableEq, Repr

/-- The error channel of `Read`: either a transport failure or a soft
`DataAvailabilityError`. -/
inductive ReadError where
  | bus : BusError → ReadError
  | avail : DataAvailabilityError → ReadError
deriving DecidableEq, Repr

/-- The register address of `Read`'s burst: `0x27 | (1 << 7)` (OUT_X_L with
the auto-increment bit set). -/
def outBurstReg : Nat := 0x27 ||| (1 <<< 7)

/-- `Read()` from the source. `bus addr reg n` is the `ReadSliceFromReg`
transport: the n bytes read into the buffer (the buffer is zero-initialised,
hence `getD _ 0`). On transport failure the Go zero vector is returned with
the error; otherwise the three axes are decoded from bytes 1..6 and byte 0
is interpreted as the status. -/
def l3gdRead (l3g : L3GD) (bus : Nat → Nat → Nat → Except BusError (List Nat)) :
    Vector3 × Option ReadError :=
  match bus l3g.address outBurstReg 7 with
  | .error e => (⟨0, 0, 0⟩, some (.bus e))
  | .ok bytes =>
    (⟨decodeAxis (bytes.getD 1 0) (bytes.getD 2 0),
      decodeAxis (bytes.getD 3 0) (bytes.getD 4 0),
      decodeAxis (bytes.getD 5 0) (bytes.getD 6 0)⟩,
     (statusErr (bytes.getD 0 0)).map ReadError.avail)

theorem zero_ldiff (n : Nat) : Nat.ldiff 0 n = 0 := by
  simp [Nat.ldiff, Nat.bitwise_zero_left]

theorem ldiff_zero (n : Nat) : Nat.ldiff n 0 = n := by
  simp [Nat.ldiff, Nat.bitwise_zero_right]

theorem decodeAxis_ff_7f : decodeAxis 0xff 0x7f = -1 := by
  show Int.lor (Int.ofNat (Nat.shiftLeft' false 127 8)) (Int.negSucc 0) = -1
  rw [show Nat.shiftLeft' false 127 8 = 32512 from rfl]
  show Int.negSucc (Nat.ldiff 0 32512) = -1
  rw [zero_ldiff]
  decide

theorem decodeAxis_00_80 : decodeAxis 0x00 0x80 = -32768 := by
  show Int.lor (Int.negSucc (Nat.shiftLeft' true 127 8)) (Int.ofNat 0) = -32768
  rw [show Nat.shiftLeft' true 127 8 = 32767 from rfl]
  show Int.negSucc (Nat.ldiff 32767 0) = -32768
  rw [ldiff_zero]
  decide

/-- C1: the code's decode at the claim's inputs. The pair (lo, hi) =
(0xff, 0x7f) should decode to 32767 under 16-bit two's-complement
little-endian semantics, but the code yields -1: sign-extending the low
byte before the OR smears ones over the high byte whenever lo ≥ 0x80. -/
theorem decodeAxis_bug_eval :
    decodeAxis 0xff 0x7f = -1 ∧
    decode16LE 0xff 0x7f = 32767 ∧
    decodeAxis 0xff 0x7f ≠ decode16LE 0xff 0x7f ∧
    decodeAxis 0xff 0xff = -1 ∧
    decodeAxis 0x00 0x80 = -32768 ∧
    decodeAxis 0x01 0x00 = 1 := by
  refine ⟨decodeAxis_ff_7f, by decide, ?_, by decide, decodeAxis_00_80, by decide⟩
  rw [decodeAxis_ff_7f]
  decide

/-- C2 counterexample: the code maps status byte 0x00 (low nibble zero) to
NotYetAvailable, not Fresh, and 0x0f (low nibble set, high nibble clear) to
Fresh, not NotYetAvailable — the claim's particulars for 0x00 and 0x0f are
swapped, and contradict the claim's own general nibble rule. -/
theorem status_particulars_counterexample :
    statusErr 0x00 = some ⟨true, false⟩ ∧
    specAvailability 0x00 = .NotYetAvailable ∧
    specAvailability 0x00 ≠ .Fresh ∧
    statusErr 0x0f = none ∧
    specAvailability 0x0f = .Fresh ∧
    specAvailability 0x0f ≠ .NotYetAvailable := by
  decide

/-- C2 (amended): for every status byte, the code's outcome follows the
nibble rule — high nibble non-zero → Overwritten, else low nibble zero →
NotYetAvailable, else Fresh — and in particular 0x00 → NotYetAvailable,
0x0f → Fresh, 0xf0 → Overwritten, 0xff → Overwritten (overrun takes
precedence when both nibbles are set). -/
theorem statusErr_matches_spec (b0 : Nat) :
    (statusErr b0 = none ↔ specAvailability b0 = .Fresh) ∧
    (statusErr b0 = some ⟨true, false⟩ ↔ specAvailability b0 = .NotYetAvailable) ∧
    (statusErr b0 = some ⟨false, true⟩ ↔ specAvailability b0 = .Overwritten) ∧
    specAvailability 0x00 = .NotYetAvailable ∧
    specAvailability 0x0f = .Fresh ∧
    specAvailability 0xf0 = .Overwritten ∧
    specAvailability 0xff = .Overwritten := by
  refine ⟨?_, ?_, ?_, by decide, by decide, by decide, by decide⟩ <;>
  · simp only [statusErr, specAvailability]
    split_ifs <;> simp_all

theorem selectEntry_eq (hz : Int) :
    selectEntry hz bitsLowodrDrForFrequency = some (specSelect hz) := by
  unfold specSelect bitsLowodrDrForFrequency
  by_cases h1 : hz ≤ 12
  · simp [selectEntry, List.find?, h1]
  by_cases h2 : hz ≤ 25
  · simp [selectEntry, List.find?, h1, h2]
  by_cases h3 : hz ≤ 50
  · simp [selectEntry, List.find?, h1, h2, h3]
  by_cases h4 : hz ≤ 100
  · simp [selectEntry, List.find?, h1, h2, h3, h4]
  by_cases h5 : hz ≤ 200
  · simp [selectEntry, List.find?, h1, h2, h3, h4, h5]
  by_cases h6 : hz ≤ 400
  · simp [selectEntry, List.find?, h1, h2, h3, h4, h5, h6]
  by_cases h7 : hz ≤ 800
  · simp [selectEntry, List.find?, h1, h2, h3, h4, h5, h6, h7]
  · simp [selectEntry, List.find?, h1, h2, h3, h4, h5, h6, h7]

/-- C3: for every hz, the loop of SetFrequency selects exactly one row of
the frequency table — the first (in ascending order) whose threshold is
≥ hz, with the last (800 Hz) row as the unconditional fallback — and the
selection is total (never `none`). `specSelect` is the spec's "first entry
with thresholdHz ≥ hz, else the last entry" policy. -/
theorem selectEntry_firstGE_total (hz : Int) :
    selectEntry hz bitsLowodrDrForFrequency = some (specSelect hz) :=
  selectEntry_eq hz

theorem setFrequencyLoop_eq (l3g : L3GD) (wo : Nat → Option BusError) (hz : Int)
    (trace : List RegWrite) (tbl : List (Int × Nat × Nat)) (e : Int × Nat × Nat)
    (h : selectEntry hz tbl = some e) :
    setFrequencyLoop l3g wo hz trace tbl =
      (match writeStep wo trace ⟨l3g.address, regLowOdr, e.2.1⟩ with
       | (t, some err) => (t, some err)
       | (t, none) => writeStep wo t ⟨l3g.address, regCtrl1, e.2.2⟩) := by
  induction tbl with
  | nil => simp [selectEntry] at h
  | cons a rest ih =>
    simp only [selectEntry] at h
    simp only [setFrequencyLoop]
    split_ifs at h ⊢ with hc
    · injection h with h3
      subst h3
      rfl
    · exact ih h

/-- C4: with a transport that accepts all three writes, SetFrequency issues
exactly three writes, in order: 0x00 to CTRL4 (0x23), the selected row's
lowOdrBit to LOW_ODR (0x39), the selected row's ctrl1Bits to CTRL1 (0x20);
in particular hz = 100 selects (lowOdr, ctrl1) = (0x00, 0x0f) and hz = 12
selects (0x01, 0x0f). -/
theorem setFrequency_three_writes (l3g : L3GD) (wo : Nat → Option BusError) (hz : Int)
    (h0 : wo 0 = none) (h1 : wo 1 = none) (h2 : wo 2 = none) :
    setFrequency l3g wo hz =
      ([⟨l3g.address, regCtrl4, 0x00⟩,
        ⟨l3g.address, regLowOdr, (specSelect hz).2.1⟩,
        ⟨l3g.address, regCtrl1, (specSelect hz).2.2⟩], none) ∧
    (specSelect 100).2.1 = 0x00 ∧ (specSelect 100).2.2 = 0x0f ∧
    (specSelect 12).2.1 = 0x01 ∧ (specSelect 12).2.2 = 0x0f := by
  refine ⟨?_, by decide, by decide, by decide, by decide⟩
  simp only [setFrequency, writeStep, List.length_nil, h0]
  rw [setFrequencyLoop_eq l3g wo hz _ _ _ (selectEntry_eq hz)]
  simp [writeStep, h1, h2]

theorem setFrequency_three_writes_witness :
    setFrequency ⟨0x6b⟩ (fun _ => none) 100 =
      ([⟨0x6b, regCtrl4, 0x00⟩, ⟨0x6b, regLowOdr, (specSelect 100).2.1⟩,
        ⟨0x6b, regCtrl1, (specSelect 100).2.2⟩], none) :=
  (setFrequency_three_writes ⟨0x6b⟩ (fun _ => none) 100 rfl rfl rfl).1

/-- C8: if the transport accepts the first write (CTRL4) but fails the
second (LOW_ODR) with error e, SetFrequency stops, returns e unmodified,
and never issues the third (CTRL1) write: the trace holds exactly the two
issued writes. -/
theorem setFrequency_aborts_on_second_write (l3g : L3GD) (wo : Nat → Option BusError)
    (hz : Int) (e : BusError) (h0 : wo 0 = none) (h1 : wo 1 = some e) :
    setFrequency l3g wo hz =
      ([⟨l3g.address, regCtrl4, 0x00⟩, ⟨l3g.address, regLowOdr, (specSelect hz).2.1⟩],
       some e) := by
  simp only [setFrequency, writeStep, List.length_nil, h0]
  rw [setFrequencyLoop_eq l3g wo hz _ _ _ (selectEntry_eq hz)]
  simp [writeStep, h1]

theorem setFrequency_aborts_on_second_write_witness :
    setFrequency ⟨0x6b⟩ (fun n => if n = 1 then some ⟨7⟩ else none) 100 =
      ([⟨0x6b, regCtrl4, 0x00⟩, ⟨0x6b, regLowOdr, (specSelect 100).2.1⟩], some ⟨7⟩) :=
  setFrequency_aborts_on_second_write ⟨0x6b⟩ (fun n => if n = 1 then some ⟨7⟩ else none)
    100 ⟨7⟩ rfl rfl

/-- C5: a successful Sleep, having read CTRL1 value V, writes back exactly
V &&& 0xf7 (Go: V &^ (1<<3)) to CTRL1: bit 3 is cleared and every other
bit of the byte is unchanged. -/
theorem sleep_clears_bit3 (l3g : L3GD) (V : Nat) (wo : Nat → Option BusError)
    (hV : V < 256) (h0 : wo 0 = none) :
    sleep l3g (.ok V) wo = ([⟨l3g.address, regCtrl1, V &&& 0xf7⟩], none) ∧
    Nat.testBit (V &&& 0xf7) 3 = false ∧
    (∀ i, i ≠ 3 → Nat.testBit (V &&& 0xf7) i = Nat.testBit V i) := by
  refine ⟨by simp [sleep, writeStep, h0], ?_, ?_⟩
  · rw [Nat.testBit_land]
    have hbit3 : (0xf7 : Nat).testBit 3 = false := by decide
    simp [hbit3]
  · intro i hi
    rw [Nat.testBit_land]
    by_cases h8 : i < 8
    · have hbit : (0xf7 : Nat).testBit i = true := by
        interval_cases i <;> first | decide | simp_all
      simp [hbit]
    · have h256 : (256 : Nat) ≤ 2 ^ i := by
        calc (256 : Nat) = 2 ^ 8 := by norm_num
        _ ≤ 2 ^ i := Nat.pow_le_pow_right (by norm_num) (by omega)
      have hm : (0xf7 : Nat).testBit i = false :=
        Nat.testBit_eq_false_of_lt (lt_of_lt_of_le (by norm_num) h256)
      have hv : V.testBit i = false :=
        Nat.testBit_eq_false_of_lt (lt_of_lt_of_le hV h256)
      simp [hm, hv]

theorem sleep_clears_bit3_witness :
    sleep ⟨0x6b⟩ (.ok 0xff) (fun _ => none) = ([⟨0x6b, regCtrl1, 0xff &&& 0xf7⟩], none) :=
  (sleep_clears_bit3 ⟨0x6b⟩ 0xff (fun _ => none) (by decide) rfl).1

/-- C6: a successful Wake, having read CTRL1 value V, writes back exactly
V ||| 0xf0 to CTRL1: bits 4–7 are set unconditionally and bits 0–3 are
unchanged. -/
theorem wake_sets_high_nibble (l3g : L3GD) (V : Nat) (wo : Nat → Option BusError)
    (_hV : V < 256) (h0 : wo 0 = none) :
    wake l3g (.ok V) wo = ([⟨l3g.address, regCtrl1, V ||| 0xf0⟩], none) ∧
    (∀ i, 4 ≤ i → i ≤ 7 → Nat.testBit (V ||| 0xf0) i = true) ∧
    (∀ i, i < 4 → Nat.testBit (V ||| 0xf0) i = Nat.testBit V i) := by
  refine ⟨by simp [wake, writeStep, h0], ?_, ?_⟩
  · intro i h4 h7
    rw [Nat.testBit_lor]
    have hbit : (0xf0 : Nat).testBit i = true := by interval_cases i <;> decide
    simp [hbit]
  · intro i h4
    rw [Nat.testBit_lor]
    have hbit : (0xf0 : Nat).testBit i = false := by interval_cases i <;> decide
    simp [hbit]

theorem wake_sets_high_nibble_witness :
    wake ⟨0x6b⟩ (.ok 0x07) (fun _ => none) = ([⟨0x6b, regCtrl1, 0x07 ||| 0xf0⟩], none) :=
  (wake_sets_high_nibble ⟨0x6b⟩ 0x07 (fun _ => none) (by decide) rfl).1

/-- C7: Sleep on CTRL1 value V writes V &&& 0xf7; Wake, reading that value
back unchanged, writes (V &&& 0xf7) ||| 0xf0 — i.e. (V & ~0x08) | 0xf0,
which is not necessarily V (e.g. V = 0x0f): Wake forces bits 4–7 on rather
than restoring their pre-Sleep values. -/
theorem sleep_then_wake_roundtrip (l3g : L3GD) (V : Nat) (wo : Nat → Option BusError)
    (h0 : wo 0 = none) :
    sleep l3g (.ok V) wo = ([⟨l3g.address, regCtrl1, V &&& 0xf7⟩], none) ∧
    wake l3g (.ok (V &&& 0xf7)) wo =
      ([⟨l3g.address, regCtrl1, (V &&& 0xf7) ||| 0xf0⟩], none) ∧
    ((0x0f &&& 0xf7 : Nat) ||| 0xf0 ≠ 0x0f) := by
  exact ⟨by simp [sleep, writeStep, h0], by simp [wake, writeStep, h0], by decide⟩

theorem sleep_then_wake_roundtrip_witness :
    sleep ⟨0x6b⟩ (.ok 0x0f) (fun _ => none) = ([⟨0x6b, regCtrl1, 0x0f &&& 0xf7⟩], none) ∧
    wake ⟨0x6b⟩ (.ok (0x0f &&& 0xf7)) (fun _ => none) =
      ([⟨0x6b, regCtrl1, (0x0f &&& 0xf7) ||| 0xf0⟩], none) :=
  ⟨(sleep_then_wake_roundtrip ⟨0x6b⟩ 0x0f (fun _ => none) rfl).1,
   (sleep_then_wake_roundtrip ⟨0x6b⟩ 0x0f (fun _ => none) rfl).2.1⟩

/-- C9: Read performs a single 7-byte burst at register 0x27 with the
auto-increment bit set (= 0xa7) — its result depends on the transport only
through that one call; on transport failure it returns the error with the
zero vector and no data-availability status; on success it always returns
the vector decoded from bytes 1..6 (whatever the status byte says), and any
error it reports alongside is a DataAvailabilityError, never a bus error. -/
theorem read_contract (l3g : L3GD) (bus : Nat → Nat → Nat → Except BusError (List Nat)) :
    outBurstReg = 0xa7 ∧
    (∀ bus2 : Nat → Nat → Nat → Except BusError (List Nat),
      bus l3g.address outBurstReg 7 = bus2 l3g.address outBurstReg 7 →
      l3gdRead l3g bus = l3gdRead l3g bus2) ∧
    (∀ e : BusError, bus l3g.address outBurstReg 7 = .error e →
      l3gdRead l3g bus = (⟨0, 0, 0⟩, some (.bus e))) ∧
    (∀ bs : List Nat, bus l3g.address outBurstReg 7 = .ok bs →
      (l3gdRead l3g bus).1 =
        ⟨decodeAxis (bs.getD 1 0) (bs.getD 2 0), decodeAxis (bs.getD 3 0) (bs.getD 4 0),
         decodeAxis (bs.getD 5 0) (bs.getD 6 0)⟩ ∧
      ∀ r : ReadError, (l3gdRead l3g bus).2 = some r →
        ∃ d : DataAvailabilityError, r = ReadError.avail d) := by
  refine ⟨by decide, ?_, ?_, ?_⟩
  · intro bus2 h
    simp [l3gdRead, h]
  · intro e h
    simp [l3gdRead, h]
  · intro bs h
    refine ⟨by simp [l3gdRead, h], ?_⟩
    intro r hr
    simp only [l3gdRead, h] at hr
    rcases Option.map_eq_some'.mp hr with ⟨d, _, hd⟩
    exact ⟨d, hd.symm⟩

theorem read_contract_witness :
    l3gdRead ⟨0x6b⟩ (fun _ _ _ => .error ⟨5⟩) = (⟨0, 0, 0⟩, some (.bus ⟨5⟩)) :=
  (read_contract ⟨0x6b⟩ (fun _ _ _ => .error ⟨5⟩)).2.2.1 ⟨5⟩ rfl

/-- C10: every DataAvailabilityError that Read reports has exactly one of
its two flags set; hence Error()'s check order never misdescribes an
overrun (overwritten errors have NewDataNotAvailable = false) and the
unknown-error branch is unreachable for errors produced by Read. -/
theorem read_avail_invariant (l3g : L3GD)
    (bus : Nat → Nat → Nat → Except BusError (List Nat)) (d : DataAvailabilityError)
    (h : (l3gdRead l3g bus).2 = some (.avail d)) :
    (d.NewDataNotAvailable = true ∧ d.NewDataWasOverwritten = false ∨
     d.NewDataNotAvailable = false ∧ d.NewDataWasOverwritten = true) ∧
    d.errorString ≠ unknownMsg ∧
    (d.NewDataWasOverwritten = true → d.errorString = overwrittenMsg) := by
  rcases hbus : bus l3g.address outBurstReg 7 with e | bs
  · simp [l3gdRead, hbus] at h
  · simp only [l3gdRead, hbus] at h
    rcases Option.map_eq_some'.mp h with ⟨d2, hd2, havail⟩
    have hd : statusErr (bs.getD 0 0) = some d := by
      have h3 : d2 = d := by injection havail
      rw [← h3]
      exact hd2
    simp only [statusErr] at hd
    split_ifs at hd
    · obtain rfl : d = (⟨false, true⟩ : DataAvailabilityError) := by
        injection hd with h3
        exact h3.symm
      exact ⟨Or.inr ⟨rfl, rfl⟩, by decide, fun _ => by decide⟩
    · obtain rfl : d = (⟨true, false⟩ : DataAvailabilityError) := by
        injection hd with h3
        exact h3.symm
      exact ⟨Or.inl ⟨rfl, rfl⟩, by decide, fun hcontra => by simp at hcontra⟩

theorem read_avail_invariant_witness :
    (DataAvailabilityError.mk false true).errorString ≠ unknownMsg :=
  (read_avail_invariant ⟨0x6b⟩ (fun _ _ _ => .ok [0xf0, 0, 0, 0, 0, 0, 0])
    ⟨false, true⟩ rfl).2.1

end Minimu9
